import Mathlib

/-!
Verification of the `rs-gh-app` application installer.

This file gives a shallow embedding, in Lean 4, of the pure decision logic
of the repository's three Rust source files (`src/app.rs`, `src/github.rs`,
`src/main.rs`) and proves properties of that logic.  Effectful operations
(HTTP requests, subprocess execution, filesystem writes) are modelled by
passing their observable outcomes in as explicit parameters, or by having
functions return a description of the action they would perform.

Namespaces mirror the source files: `AppRs` for `src/app.rs`, `GithubRs`
for `src/github.rs`, `MainRs` for `src/main.rs`.  Shared helpers (the
regular-expression model used by both version extractors, and a model of
Rust's `str::replace`) sit at top level.
-/

/-! ## String helpers shared by the embeddings -/

/-- Maximal run of decimal digits at the head of a character list, together
with the remaining characters.  Models how a greedy `\d+`-style scan
consumes input. -/
def takeDigits : List Char → List Char × List Char
  | [] => ([], [])
  | c :: cs =>
    if c.isDigit then
      let p := takeDigits cs
      (c :: p.1, p.2)
    else ([], c :: cs)

/-- Maximal run of whitespace at the head of a character list (used by the
`version\s+...` pattern of `app.rs`). -/
def takeWhites : List Char → List Char × List Char
  | [] => ([], [])
  | c :: cs =>
    if c.isWhitespace then
      let p := takeWhites cs
      (c :: p.1, p.2)
    else ([], c :: cs)

/-- Number of `'.'` characters in a character list.  A `major.minor.patch`
match has at least two dots; the "looser two-part" fallback match of the
extractors has exactly one. -/
def countDot : List Char → Nat
  | [] => 0
  | c :: cs => (if c = '.' then 1 else 0) + countDot cs

/-- Leftmost-match scan: try the position matcher `f` at every suffix of the
input, earliest position first, the empty suffix included.  This is the
search order of Rust's `regex` crate (`leftmost-first` semantics) for the
patterns modelled below. -/
def findAt {α : Type} (f : List Char → Option α) : List Char → Option α
  | [] => f []
  | c :: cs =>
    match f (c :: cs) with
    | some v => some v
    | none => findAt f cs

/-! ## The version-number regular expressions

`app.rs` tries, in order, the patterns
`(\d{1,5}\.\d{1,5}\.\d{1,5}(?:\.\d{1,5})?)`, the same with a literal `v` in
front, the same preceded by `version\s+`, and finally the two-part
`(\d{1,5}\.\d{1,5})`.  `main.rs` uses the single pattern
`(\d{1,5}\.\d{1,5}\.\d{1,5})`.

Because `\d` never matches `.`, the backtracking behaviour of `\d{1,5}\.`
collapses to: the maximal digit run at the position must have length 1..5
and be followed by a literal dot.  A final `\d{1,5}` simply takes the first
five characters of the digit run (which must be nonempty).  `matchCoreAt`
computes, at one position, the shared three leading components and the
optional fourth component; the per-pattern matchers then render the
components the way each pattern's capture group would. -/

/-- Components of a `\d{1,5}\.\d{1,5}\.\d{1,5}(?:\.\d{1,5})?` match. -/
structure VerComps where
  d1 : List Char
  d2 : List Char
  d3 : List Char
  d4 : Option (List Char)
deriving DecidableEq, Repr

/-- Match the shared core of the three/four-component version patterns at
the current position (no scanning). -/
def matchCoreAt (cs : List Char) : Option VerComps :=
  let p1 := takeDigits cs
  if p1.1.length = 0 || decide (p1.1.length > 5) then none
  else
    match p1.2 with
    | '.' :: r2 =>
      let p2 := takeDigits r2
      if p2.1.length = 0 || decide (p2.1.length > 5) then none
      else
        match p2.2 with
        | '.' :: r4 =>
          let p3 := takeDigits r4
          if p3.1.length = 0 then none
          else if decide (p3.1.length ≤ 5) then
            match p3.2 with
            | '.' :: r6 =>
              let p4 := takeDigits r6
              if p4.1.length = 0 then some ⟨p1.1, p2.1, p3.1, none⟩
              else some ⟨p1.1, p2.1, p3.1, some (p4.1.take 5)⟩
            | _ => some ⟨p1.1, p2.1, p3.1, none⟩
          else some ⟨p1.1, p2.1, p3.1.take 5, none⟩
        | _ => none
    | _ => none

/-- Text matched by the three-component pattern (`main.rs`'s capture group):
the fourth component, if present in the input, is not part of the match. -/
def render3 (v : VerComps) : List Char :=
  v.d1 ++ '.' :: v.d2 ++ '.' :: v.d3

/-- Text matched by the three-component pattern with optional fourth
component (`app.rs`'s first capture group). -/
def render4 (v : VerComps) : List Char :=
  match v.d4 with
  | none => render3 v
  | some d => v.d1 ++ '.' :: v.d2 ++ '.' :: v.d3 ++ '.' :: d

/-- Leftmost match of `app.rs`'s first pattern over a whole string. -/
def findP1 (l : List Char) : Option (List Char) :=
  (findAt matchCoreAt l).map render4

/-- Leftmost match of `main.rs`'s single pattern over a whole string. -/
def findMain (l : List Char) : Option (List Char) :=
  (findAt matchCoreAt l).map render3

/-- Pattern 2 of `app.rs`, `v(\d{1,5}\.\d{1,5}\.\d{1,5}(?:\.\d{1,5})?)`, at one
position; the capture group excludes the leading `v`. -/
def matchP2At : List Char → Option (List Char)
  | [] => none
  | c :: cs => if c = 'v' then (matchCoreAt cs).map render4 else none

/-- Pattern 3 of `app.rs`, `version\s+(...)`, at one position. -/
def matchP3At (cs : List Char) : Option (List Char) :=
  if ['v', 'e', 'r', 's', 'i', 'o', 'n'].isPrefixOf cs then
    let rest := cs.drop 7
    let w := takeWhites rest
    if w.1.length = 0 then none else (matchCoreAt w.2).map render4
  else none

/-- Pattern 4 of `app.rs`, the two-part fallback `(\d{1,5}\.\d{1,5})`, at one
position. -/
def matchP4At (cs : List Char) : Option (List Char) :=
  let p1 := takeDigits cs
  if p1.1.length = 0 || decide (p1.1.length > 5) then none
  else
    match p1.2 with
    | '.' :: r2 =>
      let p2 := takeDigits r2
      if p2.1.length = 0 then none else some (p1.1 ++ '.' :: p2.1.take 5)
    | _ => none

namespace AppRs

/-- Model of `app.rs`'s `extract_version_from_string`: try the four patterns in the
fixed priority order, returning the first capture group of the first
pattern that matches anywhere in the input. -/
def extract_version_from_string (s : String) : Option String :=
  match findP1 s.data with
  | some t => some (String.mk t)
  | none =>
    match findAt matchP2At s.data with
    | some t => some (String.mk t)
    | none =>
      match findAt matchP3At s.data with
      | some t => some (String.mk t)
      | none =>
        match findAt matchP4At s.data with
        | some t => some (String.mk t)
        | none => none

end AppRs

namespace MainRs

/-- Model of `main.rs`'s `extract_version_from_string`: the single three-component
pattern `(\d{1,5}\.\d{1,5}\.\d{1,5})`, first match. -/
def extract_version_from_string (s : String) : Option String :=
  (findMain s.data).map String.mk

end MainRs

/-! ## Substring containment and lower-casing

`github.rs` compares asset names with `str::contains` after
`str::to_lowercase`.  `isSubOf h n` models `h.contains(n)` (does `n` occur
as a contiguous substring of `h`); `lowerStr` models ASCII lower-casing. -/

/-- Does `n` occur as a contiguous substring of `h`?  Models Rust's
`str::contains` for literal needles. -/
def isSubOf (h n : List Char) : Bool :=
  match h with
  | [] => n.isEmpty
  | _ :: t => n.isPrefixOf h || isSubOf t n

/-- Substring containment lifted to `String`; `containsSub h n` models
`h.contains(n)`. -/
def containsSub (h n : String) : Bool := isSubOf h.data n.data

/-- ASCII lower-casing of a string; models `str::to_lowercase` on the ASCII
asset names and platform tokens this program handles. -/
def lowerStr (s : String) : String := String.mk (s.data.map Char.toLower)

namespace GithubRs

/-- Model of `github.rs`'s `Asset`: one downloadable file attached to a release.
`browser_download_url` may be absent (draft/expired asset). -/
structure Asset where
  id : Nat
  name : String
  label : Option String
  content_type : Option String
  size : Nat
  download_count : Nat
  browser_download_url : Option String
deriving DecidableEq, Repr

/-- Model of `github.rs`'s `Release`. -/
structure Release where
  tag_name : String
  html_url : String
  assets : List Asset
deriving DecidableEq, Repr

/-- Model of `github.rs`'s `Platform`: the running host's OS and CPU architecture.
(`Platform::current` reads `env::consts`; here a platform is always passed
explicitly.) -/
structure Platform where
  os : String
  arch : String
deriving DecidableEq, Repr

/-- Model of `github.rs`'s `PlatformMatcher`: static alias tables.  The `HashMap`s
are modelled as lookup functions `String → Option (List String)`. -/
structure PlatformMatcher where
  arch_aliases : String → Option (List String)
  os_aliases : String → Option (List String)

/-- Model of `PlatformMatcher::default()`: the fixed alias tables inserted by the
`Default` implementation. -/
def PlatformMatcher.default : PlatformMatcher where
  arch_aliases := fun a =>
    if a = "aarch64" then some ["arm64", "aarch64"]
    else if a = "x86_64" then some ["x86_64", "amd64"]
    else if a = "arm" then some ["arm", "armv6", "armv7"]
    else none
  os_aliases := fun o =>
    if o = "macos" then some ["macos", "darwin", "osx"]
    else if o = "linux" then some ["linux"]
    else if o = "windows" then some ["windows", "win32", "win"]
    else none

/-- Model of `github.rs`'s `asset_matcher` with the `Option` arguments already
resolved to a matcher and a platform (the Rust function substitutes
`PlatformMatcher::default()` / `Platform::current()` for `None`).
Returns `true` for `Ok(())` and `false` for the `Err("No match found")`. -/
def asset_matcher (asset_name : String) (matcher : PlatformMatcher)
    (current_platform : Platform) : Bool :=
  let name := lowerStr asset_name
  if containsSub name current_platform.os && containsSub name current_platform.arch then
    true
  else
    match matcher.os_aliases current_platform.os,
          matcher.arch_aliases current_platform.arch with
    | some osAs, some archAs =>
      osAs.any (fun oa => archAs.any (fun aa =>
        containsSub name oa && containsSub name aa))
    | some osAs, none => osAs.any (fun oa => containsSub name oa)
    | none, some archAs => archAs.any (fun aa => containsSub name aa)
    | none, none => false

/-- Model of `github.rs`'s `find_platform_assets` (with defaults resolved as in
`asset_matcher`): keep the assets whose name matches the platform.  The
Rust function always wraps its result in `Ok`. -/
def find_platform_assets (assets : List Asset) (matcher : PlatformMatcher)
    (current_platform : Platform) : Except String (List Asset) :=
  Except.ok (assets.filter (fun a => asset_matcher a.name matcher current_platform))

/-- Observable outcome of the HTTP request `fetch_latest_release` sends:
either the send itself fails, or a response arrives with a status code, a
parse result for the JSON body (`none` when deserialization fails), and the
raw body text. -/
inductive RelResp where
  | netFail
  | httpResp (status : Nat) (parsed : Option Release) (text : String)
deriving DecidableEq, Repr

/-- Errors of `fetch_latest_release`, one constructor per distinct `Err`
site in the Rust function. -/
inductive FetchError where
  | invalidRepo
  | net
  | jsonFail
  | noRelease
  | apiError (status : Nat) (text : String)
deriving DecidableEq, Repr

/-- Model of `github.rs`'s `fetch_latest_release`.  `repo.splitn(2, '/')` yields a
second fragment exactly when `repo` contains a `/`; the response is then
dispatched on its status code: `200 OK` parses the body, `404 NOT_FOUND`
is the dedicated "No release found" error, and every other status becomes
an `apiError` carrying the status code and body text.  The optional token
only adds a request header and does not affect the result. -/
def fetch_latest_release (repo : String) (_token : Option String)
    (resp : RelResp) : Except FetchError Release :=
  if repo.data.contains '/' then
    match resp with
    | RelResp.netFail => Except.error FetchError.net
    | RelResp.httpResp status parsed text =>
      if status = 200 then
        match parsed with
        | some r => Except.ok r
        | none => Except.error FetchError.jsonFail
      else if status = 404 then Except.error FetchError.noRelease
      else Except.error (FetchError.apiError status text)
  else Except.error FetchError.invalidRepo

/-- Model of `Release::fetch_latest`: call `fetch_latest_release` and, on any error
at all, return a `Release` with empty tag, empty URL and no assets. -/
def Release.fetch_latest (repo : String) (token : Option String)
    (resp : RelResp) : Release :=
  match fetch_latest_release repo token resp with
  | Except.ok r => { tag_name := r.tag_name, html_url := r.html_url, assets := r.assets }
  | Except.error _ => { tag_name := "", html_url := "", assets := [] }

end GithubRs

/-! ## A model of the `semver` crate's plain numeric versions

`app.rs` compares versions with `semver::Version::parse` and the order on
`semver::Version`.  The model covers the plain `major.minor.patch` form
(three dot-separated decimal numerals, no leading zeros): exactly the
shape the program's own extractors produce.  Strings outside this form are
treated as unparsable, which sends `is_version_update_needed` into its
string-comparison fallback, just as an unparsable string does in the Rust
code. -/

namespace Semver

/-- A parsed plain `major.minor.patch` version. -/
structure Version where
  major : Nat
  minor : Nat
  patch : Nat
deriving DecidableEq, Repr

/-- Decimal value of a digit list. -/
def digitsToNat (l : List Char) : Nat :=
  l.foldl (fun n c => n * 10 + (c.toNat - 48)) 0

/-- Split a character list on `'.'`. -/
def splitDots : List Char → List (List Char)
  | [] => [[]]
  | c :: cs =>
    if c = '.' then [] :: splitDots cs
    else
      match splitDots cs with
      | h :: t => (c :: h) :: t
      | [] => [[c]]

/-- One numeric component: nonempty, digits only, no leading zero (except
the numeral `0` itself), as SemVer requires. -/
def parseNumComp (l : List Char) : Option Nat :=
  if (!l.isEmpty) && l.all (fun c => c.isDigit) && (l.length == 1 || l.head? != some '0')
  then some (digitsToNat l) else none

/-- Parse a plain `major.minor.patch` version string. -/
def parse (s : String) : Option Version :=
  match splitDots s.data with
  | [a, b, c] =>
    match parseNumComp a, parseNumComp b, parseNumComp c with
    | some x, some y, some z => some ⟨x, y, z⟩
    | _, _, _ => none
  | _ => none

/-- Strict order on parsed versions: lexicographic on
(major, minor, patch), as the `semver` crate orders plain versions. -/
def versionLt (a b : Version) : Bool :=
  if a.major = b.major then
    if a.minor = b.minor then decide (a.patch < b.patch)
    else decide (a.minor < b.minor)
  else decide (a.major < b.major)

end Semver

namespace AppRs

/-- Model of `app.rs`'s `AppStatus::is_version_update_needed`, as a function of the
two fields it reads (`current_version`, `latest_version`): no information
at all or no latest version means no update; no current version with a
latest version means a fresh install is needed; with both present, compare
as semantic versions when both parse, otherwise fall back to string
inequality. -/
def is_version_update_needed (current_version latest_version : Option String) : Bool :=
  match current_version, latest_version with
  | none, none => false
  | none, some _ => true
  | some current_ver, some latest_ver =>
    match Semver.parse current_ver, Semver.parse latest_ver with
    | some current_semver, some latest_semver => Semver.versionLt current_semver latest_semver
    | _, _ => current_ver != latest_ver
  | some _, none => false

end AppRs

/-! ## Rust `str::replace` -/

/-- Fuel-driven worker for `replaceL`; the fuel is an upper bound on the
number of characters still to be inspected, so recursion is structural. -/
def replaceLoop (needle repl : List Char) : Nat → List Char → List Char
  | 0, hay => hay
  | _, [] => []
  | fuel + 1, c :: cs =>
    if (!needle.isEmpty) && needle.isPrefixOf (c :: cs) then
      repl ++ replaceLoop needle repl fuel ((c :: cs).drop needle.length)
    else c :: replaceLoop needle repl fuel cs

/-- Rust's `str::replace(needle, repl)`: replace the non-overlapping
occurrences of `needle`, scanning left to right. -/
def replaceL (needle repl hay : List Char) : List Char :=
  replaceLoop needle repl hay.length hay

/-- Rust `str::replace` lifted to `String`. -/
def replaceS (s needle repl : String) : String :=
  String.mk (replaceL needle.data repl.data s.data)

namespace MainRs

/-- Model of `main.rs`'s `App` record (the `apps.yaml` entry): note it differs from
`app.rs`'s — it has `template` and `script` fields and no
`version_command`. -/
structure App where
  name : String
  bin : String
  repo : Option String
  template : Option String
  install_command : Option String
  update_command : Option String
  script : Option String
deriving DecidableEq, Repr

/-- Model of `main.rs`'s `SystemInfo` as produced by `detect_system_info`. -/
structure SystemInfo where
  os : String
  arch : String
  suffix : String
deriving DecidableEq, Repr

/-- Model of `main.rs`'s three-way `InstallationMethod`. -/
inductive InstallationMethod where
  | Template
  | Commands
  | Script
deriving DecidableEq, Repr

/-- Method `App::get_template`: the configured template or the default pattern. -/
def App.get_template (app : App) : String :=
  app.template.getD "{bin}-v{version}-{suffix}.tar.gz"

/-- Method `App::has_repo`. -/
def App.has_repo (app : App) : Bool := app.repo.isSome

/-- Method `App::get_repo`: the repo short-URL, or `""` when absent. -/
def App.get_repo (app : App) : String := app.repo.getD ""

/-- Method `App::installation_method`: presence of either custom command selects
`Commands`; else a script selects `Script`; else the GitHub `Template`
path. -/
def App.installation_method (app : App) : InstallationMethod :=
  if app.install_command.isSome || app.update_command.isSome then InstallationMethod.Commands
  else if app.script.isSome then InstallationMethod.Script
  else InstallationMethod.Template

/-- Model of `main.rs`'s `build_download_url`: expand the filename template by
literal textual replacement, then prepend the release-download URL. -/
def build_download_url (app : App) (version : String) (system_info : SystemInfo) : String :=
  let filename :=
    replaceS (replaceS (replaceS (replaceS (replaceS (replaceS (App.get_template app)
      "{name}" app.name) "{bin}" app.bin) "{version}" version)
      "{os}" system_info.os) "{arch}" system_info.arch) "{suffix}" system_info.suffix
  "https://github.com/" ++ App.get_repo app ++ "/releases/download/" ++ version ++ "/" ++ filename

end MainRs

namespace MainRs

/-- Parsed `rate` object of the `GET /rate_limit` body: the fields
`get_latest_version` reads, each `none` when absent from the JSON (the code
then substitutes `1` for `remaining` and `0` for `reset`). -/
structure RateJson where
  remaining : Option Nat
  reset : Option Nat
deriving DecidableEq, Repr

/-- Observable outcome of the rate-limit request: the send fails, or a
response arrives with a success flag and the result of parsing its body
(`none` when the body is not valid JSON). -/
inductive RateLimitResp where
  | netFail
  | httpResp (success : Bool) (parsed : Option RateJson)
deriving DecidableEq, Repr

/-- Observable outcome of the `releases/latest` request in
`get_latest_version`: the send fails, or a response arrives with a success
flag, a status code (shown in the error text) and the result of parsing the
body for its `tag_name` field (`none`: not JSON; `some none`: JSON without
a string `tag_name`; `some (some tag)`: the tag). -/
inductive ReleaseResp where
  | netFail
  | httpResp (success : Bool) (status : Nat) (tag : Option (Option String))
deriving DecidableEq, Repr

/-- Errors of `main.rs`'s `get_latest_version`, one constructor per `Err`
site.  `rateLimited` carries the reset timestamp the message is formatted
from. -/
inductive VersionError where
  | net
  | rateLimited (reset : Nat)
  | httpFail (status : Nat)
  | jsonFail
  | noTag
  | noVersion
deriving DecidableEq, Repr

/-- The release-fetching second half of `get_latest_version`: dispatch on
the response, read `tag_name`, and extract a version from it with the
file's own `extract_version_from_string`. -/
def fetch_release_tag (rel : ReleaseResp) : Except VersionError String :=
  match rel with
  | ReleaseResp.netFail => Except.error VersionError.net
  | ReleaseResp.httpResp success status tag =>
    if !success then Except.error (VersionError.httpFail status)
    else
      match tag with
      | none => Except.error VersionError.jsonFail
      | some none => Except.error VersionError.noTag
      | some (some tag_name) =>
        match extract_version_from_string tag_name with
        | some v => Except.ok v
        | none => Except.error VersionError.noVersion

/-- Model of `main.rs`'s `get_latest_version`, with the two HTTP outcomes passed in.
The returned flag records whether the `releases/latest` request was issued
at all.  The rate-limit response is inspected first: a failed send aborts;
a non-success status or an unparsable body merely warns and proceeds; a
parsed body with `remaining` equal to `0` fails with the rate-limit error
(carrying the reset time, default `0`) without issuing the release
request.  Absent `remaining` defaults to `1`, so it proceeds. -/
def get_latest_version (rl : RateLimitResp) (rel : ReleaseResp) :
    Bool × Except VersionError String :=
  match rl with
  | RateLimitResp.netFail => (false, Except.error VersionError.net)
  | RateLimitResp.httpResp success parsed =>
    if !success then (true, fetch_release_tag rel)
    else
      match parsed with
      | none => (true, fetch_release_tag rel)
      | some j =>
        if j.remaining.getD 1 = 0 then
          (false, Except.error (VersionError.rateLimited (j.reset.getD 0)))
        else (true, fetch_release_tag rel)

/-- Model of `main.rs`'s `AppStatus`. -/
structure AppStatus where
  app : App
  current_version : Option String
  latest_version : Option String
  needs_install : Bool
  pixi_managed : Bool
deriving DecidableEq, Repr

/-- Model of `main.rs`'s `get_app_status`, with the effectful probes passed in:
`pixi` is `check_pixi_managed`'s answer, `current` is
`get_current_version`'s answer, and `repoLatest` is what
`get_latest_version` would resolve to (only consulted when the app has a
repo; its error propagates through the `?`).  Without a repo the latest
version falls back to the current one, or to the literal `"unknown"`. -/
def get_app_status (app : App) (pixi : Bool) (current : Option String)
    (repoLatest : Except VersionError String) : Except VersionError AppStatus :=
  match (if app.has_repo then repoLatest else Except.ok (current.getD "unknown")) with
  | Except.error e => Except.error e
  | Except.ok latest =>
    Except.ok
      { app := app
        current_version := current
        latest_version := some latest
        needs_install := !pixi && (current.isNone || (app.has_repo && current != some latest))
        pixi_managed := pixi }

/-- The line `main.rs`'s `print_app_status` prints for a status. -/
def print_app_status (status : AppStatus) : String :=
  if status.pixi_managed then
    match status.current_version with
    | some version => "ℹ️  " ++ status.app.name ++ " (" ++ version ++ ") [pixi managed]"
    | none => "ℹ️  " ++ status.app.name ++ " [pixi managed]"
  else
    match status.current_version, status.latest_version with
    | some current, some latest =>
      if current = latest then
        "✅ " ++ status.app.name ++ " is already at the latest version (" ++ latest ++ ")"
      else
        "🆕 " ++ status.app.name ++ " v" ++ current ++ " -> v" ++ latest ++ " (update available)"
    | none, some latest => "📦 " ++ status.app.name ++ " v" ++ latest ++ " (not installed)"
    | _, _ => "❓ " ++ status.app.name ++ " (version unknown)"

/-- The command `execute_app_commands` picks before unwrapping: the update
command when this is an update and one is configured, otherwise the install
command.  A `none` result means the Rust code calls `.unwrap()` on an
absent `install_command` and panics. -/
def chosen_command (app : App) (is_update : Bool) : Option String :=
  if is_update && app.update_command.isSome then app.update_command
  else app.install_command

/-- What a (non-erroring) run of `install_app` does after resolving the
app's status. -/
inductive InstallAction where
  | printedStatus (msg : String)
  | dryRun
  | download (url : String)
  | runCommand (cmd : Option String)
  | runScript (script : Option String)
deriving DecidableEq, Repr

/-- Model of `main.rs`'s `install_app`, reduced to the action it decides on:
resolve the status (propagating its error); pixi-managed or
already-up-to-date apps only get their status printed; dry runs stop at the
preview; otherwise dispatch on the installation method.  `runCommand` and
`runScript` carry the string the code would `.unwrap()` — `none` there is
the panic.  A `download` action is the network fetch of the built URL. -/
def install_app (app : App) (pixi : Bool) (current : Option String)
    (repoLatest : Except VersionError String) (system_info : SystemInfo)
    (dry_run : Bool) : Except VersionError InstallAction :=
  match get_app_status app pixi current repoLatest with
  | Except.error e => Except.error e
  | Except.ok status =>
    if status.pixi_managed then Except.ok (InstallAction.printedStatus (print_app_status status))
    else if !status.needs_install then
      Except.ok (InstallAction.printedStatus (print_app_status status))
    else
      let latest_version := status.latest_version.getD ""
      let is_update := status.current_version.isSome
      if dry_run then Except.ok InstallAction.dryRun
      else
        match app.installation_method with
        | InstallationMethod.Template =>
          Except.ok (InstallAction.download (build_download_url app latest_version system_info))
        | InstallationMethod.Commands =>
          Except.ok (InstallAction.runCommand (chosen_command app is_update))
        | InstallationMethod.Script =>
          Except.ok (InstallAction.runScript app.script)

/-- Does the action issue a network request? -/
def InstallAction.attempts_network : InstallAction → Bool
  | InstallAction.download _ => true
  | _ => false

/-- Does the action panic on an `.unwrap()` of an absent string? -/
def InstallAction.panics : InstallAction → Bool
  | InstallAction.runCommand none => true
  | InstallAction.runScript none => true
  | _ => false

/-- A filesystem operation of the binary-replacement step of
`self_update`. -/
inductive FsOp where
  | rename (src dst : String)
  | copy (src dst : String)
  | removeFile (p : String)
  | setPerm (p : String) (mode : Nat)
deriving DecidableEq, Repr

/-- Is the operation a rename? -/
def FsOp.isRenameOp : FsOp → Bool
  | FsOp.rename _ _ => true
  | _ => false

/-- The `Replace current binary` step of `main.rs`'s `self_update`, as the
sequence of filesystem operations it performs.  Under `#[cfg(windows)]`:
remove a stale backup if one exists, rename the running executable to the
backup path, copy the new binary into place, then remove the backup.
Under `#[cfg(not(windows))]`: copy the new binary over the running
executable and set its permissions to `0o755`; there is no rename and no
backup. -/
def replace_binary_ops (isWindows : Bool) (current_exe new_binary backup_path : String)
    (backupExists : Bool) : List FsOp :=
  if isWindows then
    (if backupExists then [FsOp.removeFile backup_path] else []) ++
    [FsOp.rename current_exe backup_path,
     FsOp.copy new_binary current_exe,
     FsOp.removeFile backup_path]
  else
    [FsOp.copy new_binary current_exe, FsOp.setPerm current_exe 0o755]

end MainRs

/-! ## Helper lemmas -/

theorem countDot_append (a b : List Char) :
    countDot (a ++ b) = countDot a + countDot b := by
  induction a with
  | nil => simp [countDot]
  | cons c cs ih => simp [countDot, ih]; omega

theorem two_le_countDot_render3 (v : VerComps) : 2 ≤ countDot (render3 v) := by
  simp [render3, countDot_append, countDot]
  omega

theorem two_le_countDot_render4 (v : VerComps) : 2 ≤ countDot (render4 v) := by
  cases h : v.d4 with
  | none => simpa [render4, h] using two_le_countDot_render3 v
  | some d => simp [render4, render3, h, countDot_append, countDot]; omega

theorem Semver.versionLt_irrefl (v : Semver.Version) : Semver.versionLt v v = false := by
  simp [Semver.versionLt]

theorem findP1_eq_some {l t : List Char} (h : findP1 l = some t) :
    ∃ v : VerComps, findAt matchCoreAt l = some v ∧ t = render4 v := by
  unfold findP1 at h
  cases hf : findAt matchCoreAt l with
  | none => rw [hf] at h; simp at h
  | some v =>
    rw [hf] at h
    simp at h
    exact ⟨v, rfl, h.symm⟩

theorem render4_eq_render3 (v : VerComps) :
    render4 v = render3 v ∨ ∃ d, render4 v = render3 v ++ '.' :: d := by
  cases h : v.d4 with
  | none => left; simp [render4, h]
  | some d =>
    right
    exact ⟨d, by simp [render4, render3, h]⟩

/-! ## The claims -/

/-- Claim C1, counterexample: on the non-Windows platform family, the
binary-replacement step of `self_update` performs no rename at all — the
new binary is copied directly over the running executable — so the claimed
"rename to a backup path first, remove the backup last" sequence does not
hold of every self-update. -/
theorem C1_counterexample :
    MainRs.replace_binary_ops false "/home/u/.local/bin/rs-gh-app" "/tmp/extract/rs-gh-app"
        "/home/u/.local/bin/rs-gh-app.exe.old" false
      = [MainRs.FsOp.copy "/tmp/extract/rs-gh-app" "/home/u/.local/bin/rs-gh-app",
         MainRs.FsOp.setPerm "/home/u/.local/bin/rs-gh-app" 493]
    ∧ (MainRs.replace_binary_ops false "/home/u/.local/bin/rs-gh-app" "/tmp/extract/rs-gh-app"
        "/home/u/.local/bin/rs-gh-app.exe.old" false).all
        (fun op => !op.isRenameOp) = true := by
  decide

/-- Claim C1, amended: only on Windows (the platform family that forbids
replacing a running executable's file in place) does the replacement rename
the current executable to the backup path, copy the new binary into the
original path, and remove the backup only afterwards (with no
permission-setting step); on every other platform the new binary is copied
directly over the current executable and its permissions set to `0o755`,
with no rename and no backup. -/
theorem C1_amended (cur new bak : String) (bex : Bool) :
    MainRs.replace_binary_ops true cur new bak bex
      = (if bex then [MainRs.FsOp.removeFile bak] else []) ++
        [MainRs.FsOp.rename cur bak, MainRs.FsOp.copy new cur, MainRs.FsOp.removeFile bak]
    ∧ (MainRs.replace_binary_ops true cur new bak bex).any MainRs.FsOp.isRenameOp = true
    ∧ MainRs.replace_binary_ops false cur new bak bex
      = [MainRs.FsOp.copy new cur, MainRs.FsOp.setPerm cur 493]
    ∧ (MainRs.replace_binary_ops false cur new bak bex).any MainRs.FsOp.isRenameOp = false := by
  cases bex <;> simp [MainRs.replace_binary_ops, MainRs.FsOp.isRenameOp]

/-- Claim C2, counterexample: for an app with no repository and no
install/update commands, a non-dry-run install with an undetectable current
version is not a no-op — it takes the template path and attempts a network
download of a URL built from the empty repository and the literal version
`"unknown"`; and when the current version is detectable, check does not
report the latest version as unknown but as equal to the current one. -/
theorem C2_counterexample :
    MainRs.install_app ⟨"helper", "helper", none, none, none, none, none⟩ false none
        (Except.error MainRs.VersionError.net) ⟨"linux", "x86_64", "x86_64-unknown-linux-musl"⟩
        false
      = Except.ok (MainRs.InstallAction.download
          "https://github.com//releases/download/unknown/helper-vunknown-x86_64-unknown-linux-musl.tar.gz")
    ∧ MainRs.InstallAction.attempts_network (MainRs.InstallAction.download
        "https://github.com//releases/download/unknown/helper-vunknown-x86_64-unknown-linux-musl.tar.gz")
      = true
    ∧ MainRs.get_app_status ⟨"helper", "helper", none, none, none, none, none⟩ false
        (some "1.2.3") (Except.error MainRs.VersionError.net)
      = Except.ok
          { app := ⟨"helper", "helper", none, none, none, none, none⟩
            current_version := some "1.2.3"
            latest_version := some "1.2.3"
            needs_install := false
            pixi_managed := false }
    ∧ MainRs.print_app_status
        { app := ⟨"helper", "helper", none, none, none, none, none⟩
          current_version := some "1.2.3"
          latest_version := some "1.2.3"
          needs_install := false
          pixi_managed := false }
      = "✅ helper is already at the latest version (1.2.3)" :=
  ⟨rfl, rfl, rfl, by decide⟩

/-- Claim C2, amended: for an application with no repository and no
install/update commands (and no script), status resolution never consults
the repository resolver; when the current version is detectable the latest
version resolves to it and check reports the app as already at the latest
version, with install a no-op; when the current version is undetectable the
latest version resolves to the literal string `"unknown"`, check reports
the app as not installed at version `"unknown"`, and a non-dry-run install
is not a no-op: it follows the template path and attempts a network
download from a URL naming the empty repository and the version
`"unknown"`. -/
theorem C2_amended :
    (∀ (v : String) (rl : Except MainRs.VersionError String),
      MainRs.install_app ⟨"helper", "helper", none, none, none, none, none⟩ false (some v) rl
          ⟨"linux", "x86_64", "x86_64-unknown-linux-musl"⟩ false
        = Except.ok (MainRs.InstallAction.printedStatus
            ("✅ helper is already at the latest version (" ++ v ++ ")")))
    ∧ (∀ rl : Except MainRs.VersionError String,
        MainRs.get_app_status ⟨"helper", "helper", none, none, none, none, none⟩ false none rl
          = Except.ok
              { app := ⟨"helper", "helper", none, none, none, none, none⟩
                current_version := none
                latest_version := some "unknown"
                needs_install := true
                pixi_managed := false })
    ∧ MainRs.print_app_status
        { app := ⟨"helper", "helper", none, none, none, none, none⟩
          current_version := none
          latest_version := some "unknown"
          needs_install := true
          pixi_managed := false }
      = "📦 helper vunknown (not installed)"
    ∧ (∀ rl : Except MainRs.VersionError String,
        MainRs.install_app ⟨"helper", "helper", none, none, none, none, none⟩ false none rl
            ⟨"linux", "x86_64", "x86_64-unknown-linux-musl"⟩ false
          = Except.ok (MainRs.InstallAction.download
              "https://github.com//releases/download/unknown/helper-vunknown-x86_64-unknown-linux-musl.tar.gz")) := by
  refine ⟨?_, ?_, by decide, ?_⟩
  · intro v rl
    simp [MainRs.install_app, MainRs.get_app_status, MainRs.App.has_repo,
      MainRs.print_app_status]
  · intro rl
    simp [MainRs.get_app_status, MainRs.App.has_repo]
  · intro rl
    simp [MainRs.install_app, MainRs.get_app_status, MainRs.App.has_repo,
      MainRs.App.installation_method]
    decide

/-- Claim C3, counterexample: `find_platform_assets` does not filter
matching assets by download URL, does not select a single asset, and never
fails: on `[a (no url), b (url=U)]` it returns `Ok [a, b]` — not `U`
alone — and on an empty match set it returns `Ok []` rather than an
error. -/
theorem C3_counterexample :
    GithubRs.find_platform_assets
        [⟨1, "app-linux-x86_64.tar.gz", none, none, 10, 0, none⟩,
         ⟨2, "app-linux-x86_64.zip", none, none, 12, 0, some "https://example.com/u"⟩]
        GithubRs.PlatformMatcher.default ⟨"linux", "x86_64"⟩
      = Except.ok
          [⟨1, "app-linux-x86_64.tar.gz", none, none, 10, 0, none⟩,
           ⟨2, "app-linux-x86_64.zip", none, none, 12, 0, some "https://example.com/u"⟩]
    ∧ ([⟨1, "app-linux-x86_64.tar.gz", none, none, 10, 0, none⟩,
        ⟨2, "app-linux-x86_64.zip", none, none, 12, 0, some "https://example.com/u"⟩]
        : List GithubRs.Asset)
      ≠ [⟨2, "app-linux-x86_64.zip", none, none, 12, 0, some "https://example.com/u"⟩]
    ∧ GithubRs.find_platform_assets [] GithubRs.PlatformMatcher.default ⟨"linux", "x86_64"⟩
      = Except.ok [] :=
  ⟨rfl, by decide, rfl⟩

/-- Claim C3, amended: `find_platform_assets` always succeeds, returning
exactly the platform-matching assets in their original list order; it
never consults download URLs, never selects a single candidate, never
warns, and never fails — even when no asset matches. -/
theorem C3_amended (assets : List GithubRs.Asset) (m : GithubRs.PlatformMatcher)
    (p : GithubRs.Platform) :
    ∃ l : List GithubRs.Asset,
      GithubRs.find_platform_assets assets m p = Except.ok l
      ∧ List.Sublist l assets
      ∧ ∀ a : GithubRs.Asset, a ∈ l ↔ (a ∈ assets ∧ GithubRs.asset_matcher a.name m p = true) := by
  refine ⟨_, rfl, List.filter_sublist _, ?_⟩
  intro a
  simp [List.mem_filter]

/-- Claim C4: `is_version_update_needed` is false when current and latest
are equal as strings (valid semver or not); true when both parse as
semantic versions with latest strictly greater; true when the current
version is absent but a latest version is resolved; and false whenever the
latest version is absent. -/
theorem C4_needs_update :
    (∀ s : String, AppRs.is_version_update_needed (some s) (some s) = false)
    ∧ (∀ (c l : String) (cv lv : Semver.Version), Semver.parse c = some cv →
        Semver.parse l = some lv → Semver.versionLt cv lv = true →
        AppRs.is_version_update_needed (some c) (some l) = true)
    ∧ (∀ l : String, AppRs.is_version_update_needed none (some l) = true)
    ∧ (∀ c : Option String, AppRs.is_version_update_needed c none = false) := by
  refine ⟨?_, ?_, ?_, ?_⟩
  · intro s
    cases h : Semver.parse s with
    | none => simp [AppRs.is_version_update_needed, h]
    | some v => simp [AppRs.is_version_update_needed, h, Semver.versionLt_irrefl]
  · intro c l cv lv hc hl hlt
    simp [AppRs.is_version_update_needed, hc, hl, hlt]
  · intro l; rfl
  · intro c; cases c <;> rfl

/-- Claim C4, witness. -/
theorem C4_witness : AppRs.is_version_update_needed (some "1.2.3") (some "1.2.4") = true :=
  C4_needs_update.2.1 "1.2.3" "1.2.4" ⟨1, 2, 3⟩ ⟨1, 2, 4⟩ (by decide) (by decide) (by decide)

/-- Claim C5: `get_latest_version` consults the rate-limit endpoint before
the release endpoint; whenever the parsed rate-limit body reports zero
remaining quota, resolution fails with a rate-limit error carrying the
reset time, and the release request is never issued; conversely, whenever
the release request is issued, no parsed rate-limit body reported zero
remaining quota. -/
theorem C5_rate_limit_guard :
    (∀ (j : MainRs.RateJson) (reset : Nat) (rel : MainRs.ReleaseResp),
      j.remaining = some 0 → j.reset = some reset →
      MainRs.get_latest_version (MainRs.RateLimitResp.httpResp true (some j)) rel
        = (false, Except.error (MainRs.VersionError.rateLimited reset)))
    ∧ (∀ (rl : MainRs.RateLimitResp) (rel : MainRs.ReleaseResp) (j : MainRs.RateJson),
        (MainRs.get_latest_version rl rel).1 = true →
        rl = MainRs.RateLimitResp.httpResp true (some j) →
        j.remaining.getD 1 ≠ 0) := by
  constructor
  · intro j reset rel h1 h2
    simp [MainRs.get_latest_version, h1, h2]
  · intro rl rel j hissued hrl hrem
    rw [hrl] at hissued
    simp [MainRs.get_latest_version, hrem] at hissued

/-- Claim C5, witness. -/
theorem C5_witness :
    MainRs.get_latest_version
        (MainRs.RateLimitResp.httpResp true (some ⟨some 0, some 1700000000⟩))
        MainRs.ReleaseResp.netFail
      = (false, Except.error (MainRs.VersionError.rateLimited 1700000000)) :=
  C5_rate_limit_guard.1 ⟨some 0, some 1700000000⟩ 1700000000 MainRs.ReleaseResp.netFail rfl rfl

/-- Claim C6, counterexample: `main.rs`'s `extract_version_from_string` has
only the three-component pattern, so on an input containing the
`major.minor.patch.build` token `1.2.3.4` it returns `"1.2.3"`, not the
exact token (which `app.rs`'s extractor does return). -/
theorem C6_counterexample :
    findP1 ("v1.2.3.4").data = some ("1.2.3.4").data
    ∧ MainRs.extract_version_from_string "v1.2.3.4" = some "1.2.3"
    ∧ ("1.2.3" : String) ≠ "1.2.3.4"
    ∧ AppRs.extract_version_from_string "v1.2.3.4" = some "1.2.3.4" := by
  decide

/-- Claim C6, amended: whenever the input contains a
`major.minor.patch[.build]` token (a match of the first pattern),
`app.rs`'s extractor returns exactly that token — never a looser two-part
match (the result has at least two dots); `main.rs`'s extractor returns
the `major.minor.patch` part of the same token, dropping a fourth `.build`
component when present, and likewise never returns a two-part match; on the
specification's example the exact token `2.3.4` is returned, not `2.3`. -/
theorem C6_amended :
    (∀ (s : String) (t : List Char), findP1 s.data = some t →
      AppRs.extract_version_from_string s = some (String.mk t) ∧ 2 ≤ countDot t)
    ∧ (∀ (s : String) (t : List Char), findP1 s.data = some t →
        ∃ u : List Char, MainRs.extract_version_from_string s = some (String.mk u)
          ∧ (t = u ∨ ∃ d, t = u ++ '.' :: d) ∧ 2 ≤ countDot u)
    ∧ AppRs.extract_version_from_string "v2.3.4 (build 2.3)" = some "2.3.4" := by
  refine ⟨?_, ?_, by decide⟩
  · intro s t h
    constructor
    · unfold AppRs.extract_version_from_string
      rw [h]
    · obtain ⟨v, _, ht⟩ := findP1_eq_some h
      rw [ht]
      exact two_le_countDot_render4 v
  · intro s t h
    obtain ⟨v, hv, ht⟩ := findP1_eq_some h
    refine ⟨render3 v, ?_, ?_, two_le_countDot_render3 v⟩
    · unfold MainRs.extract_version_from_string findMain
      rw [hv]
      rfl
    · rw [ht]
      rcases render4_eq_render3 v with h4 | ⟨d, h4⟩
      · left; exact h4
      · right; exact ⟨d, h4⟩

/-- Claim C6, witness. -/
theorem C6_witness :
    AppRs.extract_version_from_string "v10.20.30.40 tool"
      = some (String.mk ("10.20.30.40").data)
    ∧ 2 ≤ countDot ("10.20.30.40").data :=
  C6_amended.1 "v10.20.30.40 tool" ("10.20.30.40").data (by decide)

/-- Claim C7: in `fetch_latest_release`, an HTTP 404 yields the dedicated
"no release" error, and every other non-`200` status yields an `apiError`
carrying that status — a different error from `noRelease`. -/
theorem C7_not_found_distinguished :
    (∀ (repo : String) (tok : Option String) (parsed : Option GithubRs.Release) (text : String),
      repo.data.contains '/' = true →
      GithubRs.fetch_latest_release repo tok (GithubRs.RelResp.httpResp 404 parsed text)
        = Except.error GithubRs.FetchError.noRelease)
    ∧ (∀ (repo : String) (tok : Option String) (status : Nat) (parsed : Option GithubRs.Release)
        (text : String),
        repo.data.contains '/' = true → status ≠ 200 → status ≠ 404 →
        GithubRs.fetch_latest_release repo tok (GithubRs.RelResp.httpResp status parsed text)
          = Except.error (GithubRs.FetchError.apiError status text))
    ∧ (∀ (status : Nat) (text : String),
        GithubRs.FetchError.apiError status text ≠ GithubRs.FetchError.noRelease) := by
  refine ⟨?_, ?_, ?_⟩
  · intro repo tok parsed text h
    have hm : '/' ∈ repo.data := by simpa using h
    simp [GithubRs.fetch_latest_release, hm]
  · intro repo tok status parsed text h h200 h404
    have hm : '/' ∈ repo.data := by simpa using h
    simp [GithubRs.fetch_latest_release, hm, h200, h404]
  · intro status text h
    cases h

/-- Claim C7, witness. -/
theorem C7_witness :
    GithubRs.fetch_latest_release "mfouesneau/rs-gh-app" none
        (GithubRs.RelResp.httpResp 404 none "not found")
      = Except.error GithubRs.FetchError.noRelease :=
  C7_not_found_distinguished.1 "mfouesneau/rs-gh-app" none none "not found" (by decide)

/-- Claim C8: with the default alias tables, an asset name whose lowercase
form contains the platform's canonical os and arch tokens always matches
(the direct-containment branch), and an asset name containing a registered
alias of the os token and a registered alias of the arch token also
matches (the alias branch); in particular `app-linux-x86_64.tar.gz` and
`app-linux-amd64.tar.gz` both match `(linux, x86_64)`. -/
theorem C8_matcher_reflexive :
    (∀ os arch name : String,
      containsSub (lowerStr name) os = true → containsSub (lowerStr name) arch = true →
      GithubRs.asset_matcher name GithubRs.PlatformMatcher.default ⟨os, arch⟩ = true)
    ∧ (∀ (os arch name osAlias archAlias : String) (osL archL : List String),
        GithubRs.PlatformMatcher.default.os_aliases os = some osL → osAlias ∈ osL →
        GithubRs.PlatformMatcher.default.arch_aliases arch = some archL → archAlias ∈ archL →
        containsSub (lowerStr name) osAlias = true →
        containsSub (lowerStr name) archAlias = true →
        GithubRs.asset_matcher name GithubRs.PlatformMatcher.default ⟨os, arch⟩ = true)
    ∧ GithubRs.asset_matcher "app-linux-x86_64.tar.gz" GithubRs.PlatformMatcher.default
        ⟨"linux", "x86_64"⟩ = true
    ∧ GithubRs.asset_matcher "app-linux-amd64.tar.gz" GithubRs.PlatformMatcher.default
        ⟨"linux", "x86_64"⟩ = true := by
  refine ⟨?_, ?_, by decide, by decide⟩
  · intro os arch name h1 h2
    simp [GithubRs.asset_matcher, h1, h2]
  · intro os arch name osAlias archAlias osL archL hosL hosMem harchL harchMem hos harch
    cases hd : (containsSub (lowerStr name) os && containsSub (lowerStr name) arch) with
    | true => simp [GithubRs.asset_matcher, hd]
    | false =>
      simp only [GithubRs.asset_matcher, hd, Bool.false_eq_true, if_false, hosL, harchL]
      refine List.any_eq_true.mpr ⟨osAlias, hosMem, ?_⟩
      refine List.any_eq_true.mpr ⟨archAlias, harchMem, ?_⟩
      simp [hos, harch]

/-- Claim C8, witness. -/
theorem C8_witness :
    GithubRs.asset_matcher "tool-0.1.0-linux-x86_64.tgz" GithubRs.PlatformMatcher.default
        ⟨"linux", "x86_64"⟩ = true
    ∧ GithubRs.asset_matcher "tool-0.1.0-darwin-arm64.zip" GithubRs.PlatformMatcher.default
        ⟨"macos", "aarch64"⟩ = true :=
  ⟨C8_matcher_reflexive.1 "linux" "x86_64" "tool-0.1.0-linux-x86_64.tgz" (by decide) (by decide),
   C8_matcher_reflexive.2.1 "macos" "aarch64" "tool-0.1.0-darwin-arm64.zip" "darwin" "arm64"
     ["macos", "darwin", "osx"] ["arm64", "aarch64"]
     (by decide) (by decide) (by decide) (by decide) (by decide) (by decide)⟩

/-- Claim C9: an app with an update command but no install command, whose
current version is undetectable (so the operation counts as a fresh
install, not an update), reaches the Commands branch of a non-dry-run
install, which unwraps the absent install command: the modelled action is
`runCommand none`, the panic. -/
theorem C9_commands_unwrap_panic :
    ∀ (app : MainRs.App) (u latest : String) (si : MainRs.SystemInfo),
      app.update_command = some u → app.install_command = none →
      MainRs.install_app app false none (Except.ok latest) si false
        = Except.ok (MainRs.InstallAction.runCommand none)
      ∧ MainRs.InstallAction.panics (MainRs.InstallAction.runCommand none) = true := by
  intro app u latest si hu hi
  constructor
  · unfold MainRs.install_app MainRs.get_app_status
    cases hr : app.has_repo <;>
      simp [hr, MainRs.App.installation_method, hu, hi, MainRs.chosen_command]
  · rfl

/-- Claim C9, witness. -/
theorem C9_witness :
    MainRs.install_app ⟨"uv", "uv", none, none, none, some "uv self update", none⟩ false none
        (Except.ok "1.0.0") ⟨"linux", "x86_64", "x86_64-unknown-linux-musl"⟩ false
      = Except.ok (MainRs.InstallAction.runCommand none) :=
  (C9_commands_unwrap_panic ⟨"uv", "uv", none, none, none, some "uv self update", none⟩
    "uv self update" "1.0.0" ⟨"linux", "x86_64", "x86_64-unknown-linux-musl"⟩ rfl rfl).1

/-- Claim C10: `Release::fetch_latest` is total — whenever the underlying
`fetch_latest_release` fails for any reason (invalid repo string, network
failure, 404, other HTTP errors, bad JSON), it returns the release with
empty tag, empty URL and no assets; and when the underlying fetch succeeds
it returns that release unchanged. -/
theorem C10_fetch_latest_total :
    ∀ (repo : String) (tok : Option String) (resp : GithubRs.RelResp),
      (∀ e : GithubRs.FetchError, GithubRs.fetch_latest_release repo tok resp = Except.error e →
        GithubRs.Release.fetch_latest repo tok resp
          = { tag_name := "", html_url := "", assets := [] })
      ∧ (∀ r : GithubRs.Release, GithubRs.fetch_latest_release repo tok resp = Except.ok r →
          GithubRs.Release.fetch_latest repo tok resp = r) := by
  intro repo tok resp
  constructor
  · intro e h
    unfold GithubRs.Release.fetch_latest
    rw [h]
  · intro r h
    unfold GithubRs.Release.fetch_latest
    rw [h]

/-- Claim C10, witness. -/
theorem C10_witness :
    GithubRs.Release.fetch_latest "mfouesneau/rs-gh-app" none
        (GithubRs.RelResp.httpResp 404 none "")
      = { tag_name := "", html_url := "", assets := [] } :=
  (C10_fetch_latest_total "mfouesneau/rs-gh-app" none
      (GithubRs.RelResp.httpResp 404 none "")).1
    GithubRs.FetchError.noRelease rfl
